import Mathlib

/-!
Shallow embedding of the statistics aggregation and report-generation
pipeline of the file-transfer benchmark repository
(src/utils.py, src/http1_client.py, src/analyze.py).

Python floats are modelled as real numbers; Python dicts (which preserve
insertion order and have unique keys) are modelled as association lists;
a raised exception is modelled as `Except.error`.
-/

/-- A mean/stddev pair: the dict `{"mean": ..., "stddev": ...}` used for one
metric throughout the Python code. -/
@[ext]
structure MetricStats where
  mean : ℝ
  stddev : ℝ

/-- `Statistics.calculate_statistics` from src/utils.py (the identical
function also appears as `calculate_statistics` in src/http1_client.py):
mean and sample standard deviation (n-1 denominator) of a list of values,
returning `{mean 0, stddev 0}` for the empty list and stddev 0 for a
single value. -/
noncomputable def calculate_statistics (values : List ℝ) : MetricStats :=
  let n := values.length
  if n = 0 then ⟨0, 0⟩
  else
    let mean_val := values.sum / n
    let stddev :=
      if n > 1 then
        Real.sqrt ((values.map (fun x => (x - mean_val) ^ 2)).sum / ((n : ℝ) - 1))
      else 0
    ⟨mean_val, stddev⟩

/-- One raw sample record as produced per transfer attempt
(`run_experiment` in the client scripts). -/
structure RawSample where
  transfer_time : ℝ
  throughput : ℝ
  overhead_ratio : ℝ
  file_size : ℤ

/-- The summary dict built by `Statistics.process_experiment_results`
in src/utils.py. -/
structure Summary where
  file_name : String
  file_size_bytes : ℤ
  repetitions_completed : ℕ
  transfer_time : MetricStats
  throughput_bps : MetricStats
  overhead_ratio : MetricStats
  raw_results : List RawSample

/-- `Statistics.process_experiment_results` from src/utils.py: returns
`None` on an empty result list, otherwise the per-metric summary. -/
noncomputable def process_experiment_results (results : List RawSample)
    (file_name : String) : Option Summary :=
  match results with
  | [] => none
  | r0 :: _ =>
    some
      { file_name := file_name
        file_size_bytes := r0.file_size
        repetitions_completed := results.length
        transfer_time := calculate_statistics (results.map (fun r => r.transfer_time))
        throughput_bps := calculate_statistics (results.map (fun r => r.throughput))
        overhead_ratio := calculate_statistics (results.map (fun r => r.overhead_ratio))
        raw_results := results }

/-- Spec wording: the arithmetic mean, sum divided by n. -/
noncomputable def arithmeticMean (l : List ℝ) : ℝ := l.sum / l.length

/-- Spec wording: the sample standard deviation with n-1 denominator.
For n = 1 the denominator is 0 and real division by zero yields 0, so this
also evaluates to 0 there, matching the spec's "for n=1, stddev=0". -/
noncomputable def sampleStddev (l : List ℝ) : ℝ :=
  Real.sqrt ((l.map (fun x => (x - arithmeticMean l) ^ 2)).sum / ((l.length : ℝ) - 1))

/-- C1: for every non-empty list of metric values, `calculate_statistics`
returns mean equal to the arithmetic mean (sum divided by n) and stddev
equal to the sample standard deviation with n-1 denominator; for a list of
length exactly 1 the stddev is 0. -/
theorem calculate_statistics_spec (values : List ℝ) (h : values ≠ []) :
    (calculate_statistics values).mean = arithmeticMean values ∧
    (calculate_statistics values).stddev = sampleStddev values ∧
    (values.length = 1 → (calculate_statistics values).stddev = 0) := by
  have hn : values.length ≠ 0 := by simpa using h
  by_cases h1 : values.length > 1
  · refine ⟨?_, ?_, ?_⟩
    · simp [calculate_statistics, hn, arithmeticMean]
    · simp [calculate_statistics, hn, h1, sampleStddev, arithmeticMean]
    · intro hlen
      omega
  · have hlen : values.length = 1 := by omega
    refine ⟨?_, ?_, ?_⟩
    · simp [calculate_statistics, hn, arithmeticMean]
    · have hz : ((values.length : ℝ) - 1) = 0 := by rw [hlen]; norm_num
      simp [calculate_statistics, hn, h1, sampleStddev, hz]
    · intro _
      simp [calculate_statistics, hn, h1]

theorem calculate_statistics_spec_witness :
    (calculate_statistics [(1 : ℝ), 2]).mean = arithmeticMean [(1 : ℝ), 2] ∧
    (calculate_statistics [(1 : ℝ), 2]).stddev = sampleStddev [(1 : ℝ), 2] ∧
    (([(1 : ℝ), 2] : List ℝ).length = 1 →
      (calculate_statistics [(1 : ℝ), 2]).stddev = 0) :=
  calculate_statistics_spec [(1 : ℝ), 2] (by simp)

/-- C10: `calculate_statistics` returns a stddev that is ≥ 0 on every input
list (including the empty one), and returns stddev = 0 on every list whose
elements are all equal. -/
theorem calculate_statistics_stddev_invariant :
    (∀ values : List ℝ, 0 ≤ (calculate_statistics values).stddev) ∧
    (∀ (values : List ℝ) (c : ℝ), (∀ x ∈ values, x = c) →
      (calculate_statistics values).stddev = 0) := by
  constructor
  · intro values
    by_cases h0 : values.length = 0
    · simp [calculate_statistics, h0]
    · by_cases h1 : values.length > 1
      · simp only [calculate_statistics, if_neg h0, if_pos h1]
        exact Real.sqrt_nonneg _
      · simp [calculate_statistics, h0, h1]
  · intro values c hc
    by_cases h0 : values.length = 0
    · simp [calculate_statistics, h0]
    · by_cases h1 : values.length > 1
      · have hsum : values.sum = values.length • c := List.sum_eq_card_nsmul values c hc
        have hmean : values.sum / (values.length : ℝ) = c := by
          rw [hsum]
          rw [nsmul_eq_mul]
          field_simp
        have hzero : (values.map (fun x => (x - values.sum / values.length) ^ 2)).sum = 0 := by
          apply List.sum_eq_zero
          intro y hy
          rcases List.mem_map.mp hy with ⟨x, hx, rfl⟩
          rw [hmean, hc x hx]
          ring
        simp only [calculate_statistics, if_neg h0, if_pos h1]
        rw [hzero]
        simp
      · simp [calculate_statistics, h0, h1]

theorem calculate_statistics_stddev_invariant_witness :
    (calculate_statistics [(2 : ℝ), 2, 2]).stddev = 0 :=
  calculate_statistics_stddev_invariant.2 [(2 : ℝ), 2, 2] 2 (by simp)

/-- Per-size data carried through src/analyze.py: the three metric dicts
(`transfer_time`, `throughput`, `overhead_ratio`) for one file-size key. -/
@[ext]
structure SizeData where
  transfer_time : MetricStats
  throughput : MetricStats
  overhead_ratio : MetricStats

/-- One parsed result file's `files` mapping from file-size key to metric
data. Python dicts preserve insertion order and have unique keys, hence an
association list. -/
abbrev FileResult := List (String × SizeData)

/-- The list comprehension `[v for v in vs if v != 0]` applied to means and
stddevs inside merge_protocol_results. -/
noncomputable def nonzeroFilter : List ℝ → List ℝ
  | [] => []
  | x :: xs => if x ≠ 0 then x :: nonzeroFilter xs else nonzeroFilter xs

/-- The closed set of recognized size labels in merge_protocol_results. -/
def sizeLabels : List String := ["10kB", "100kB", "1MB", "10MB"]

/-- The `base_size_conversion` dict of merge_protocol_results, as a partial
lookup; Python raises KeyError exactly where this returns `none`. -/
def base_size_conversion (s : String) : Option String :=
  if s = "10240" then some "10kB"
  else if s = "102400" then some "100kB"
  else if s = "1048576" then some "1MB"
  else if s = "10485760" then some "10MB"
  else none

/-- Python `str.split('_')` over the character list. -/
def splitUnderscore : List Char → List (List Char)
  | [] => [[]]
  | c :: cs =>
    match splitUnderscore cs with
    | [] => [[c]]
    | h :: t => if c = '_' then [] :: h :: t else (c :: h) :: t

/-- `file_name.split('_')[1] if '_' in file_name else file_name`. -/
def baseOfFileName (file_name : String) : String :=
  if '_' ∈ file_name.toList then
    String.mk ((splitUnderscore file_name.toList).getD 1 [])
  else file_name

/-- The conversion attempt `base_size_conversion[base_size]` guarded by the
first membership test: a recognized label passes through, a recognized raw
byte count is converted, anything else raises KeyError (`Except.error`
carrying the offending key). -/
def convertBase (base : String) : Except String String :=
  if base ∈ sizeLabels then Except.ok base
  else
    match base_size_conversion base with
    | some l => Except.ok l
    | none => Except.error base

/-- The whole label-normalization step of merge_protocol_results, including
the second membership test whose `continue` (the `Except.ok none` branch)
is unreachable after a successful conversion. -/
def normalizeBase (file_name : String) : Except String (Option String) :=
  match convertBase (baseOfFileName file_name) with
  | Except.error e => Except.error e
  | Except.ok b => if b ∈ sizeLabels then Except.ok (some b) else Except.ok none

/-- Dict lookup `result[file_name]` (with `file_name in result`). -/
def lookupKey (r : FileResult) (k : String) : Option SizeData :=
  (r.find? (fun e => e.1 == k)).map Prod.snd

/-- The fallback scan `for key in result: if base_size in key: ... break`,
which takes the first key containing base_size as a substring. -/
def findContaining (r : FileResult) (base : String) : Option SizeData :=
  (r.find? (fun e => decide (base.toList <:+: e.1.toList))).map Prod.snd

/-- Collecting `size_results` for one file_name across all result files:
exact key match first, otherwise the first key containing base_size. -/
def sizeResultsFor (file_results : List FileResult) (file_name base : String) :
    List SizeData :=
  file_results.flatMap (fun result =>
    match lookupKey result file_name with
    | some v => [v]
    | none =>
      match findContaining result base with
      | some v => [v]
      | none => [])

/-- The per-metric merge of merge_protocol_results: average of the non-zero
means; root-mean-square of the non-zero stddevs when the collected stddevs
are non-empty and one is positive; `{mean 0, stddev 0}` otherwise. -/
noncomputable def mergeMetric (size_results : List SizeData)
    (sel : SizeData → MetricStats) : MetricStats :=
  let means := nonzeroFilter (size_results.map (fun r => (sel r).mean))
  let stddevs := nonzeroFilter (size_results.map (fun r => (sel r).stddev))
  if means ≠ [] then
    { mean := means.sum / means.length
      stddev :=
        if stddevs ≠ [] ∧ ∃ s ∈ stddevs, s > 0 then
          Real.sqrt ((stddevs.map (fun s => s ^ 2)).sum / stddevs.length)
        else 0 }
  else { mean := 0, stddev := 0 }

/-- The merged entry written to `merged_data[base_size]`. -/
noncomputable def mergedSizeData (size_results : List SizeData) : SizeData :=
  { transfer_time := mergeMetric size_results (fun r => r.transfer_time)
    throughput := mergeMetric size_results (fun r => r.throughput)
    overhead_ratio := mergeMetric size_results (fun r => r.overhead_ratio) }

/-- Python dict assignment `merged_data[base_size] = v`: update in place
when the key exists, append otherwise. -/
def updateKey (l : FileResult) (k : String) (v : SizeData) : FileResult :=
  if l.any (fun e => e.1 == k) then
    l.map (fun e => if e.1 == k then (k, v) else e)
  else l ++ [(k, v)]

/-- First-appearance deduplication standing in for the Python set
`all_file_sizes`. Python set iteration order is unspecified; first
appearance is the order chosen by this embedding (the merged dict is only
read back by key lookup downstream, so the choice is unobservable). -/
def dedupKeys (l : List String) : List String :=
  l.foldl (fun acc x => if x ∈ acc then acc else acc ++ [x]) []

/-- The main loop of merge_protocol_results over the collected file sizes. -/
noncomputable def mergeLoop (file_results : List FileResult) :
    List String → FileResult → Except String FileResult
  | [], merged_data => Except.ok merged_data
  | file_name :: rest, merged_data =>
    match normalizeBase file_name with
    | Except.error e => Except.error e
    | Except.ok none => mergeLoop file_results rest merged_data
    | Except.ok (some base_size) =>
      match sizeResultsFor file_results file_name base_size with
      | [] => mergeLoop file_results rest merged_data
      | v :: vs =>
        mergeLoop file_results rest
          (updateKey merged_data base_size (mergedSizeData (v :: vs)))

/-- merge_protocol_results from src/analyze.py. The result is an `Except`
because the label-normalization step can raise KeyError. -/
noncomputable def merge_protocol_results (file_results : List FileResult) :
    Except String FileResult :=
  match file_results with
  | [] => Except.ok []
  | _ :: _ =>
    mergeLoop file_results
      (dedupKeys (file_results.flatMap (fun r => r.map Prod.fst))) []

theorem nonzeroFilter_eq_filter (l : List ℝ) :
    nonzeroFilter l = l.filter (fun m => decide (m ≠ 0)) := by
  induction l with
  | nil => rfl
  | cons x xs ih =>
    by_cases hx : x ≠ 0
    · simp [nonzeroFilter, hx, ih]
    · simp only [ne_eq, not_not] at hx
      simp [nonzeroFilter, hx, ih]

theorem mem_nonzeroFilter {x : ℝ} {l : List ℝ} :
    x ∈ nonzeroFilter l ↔ x ∈ l ∧ x ≠ 0 := by
  rw [nonzeroFilter_eq_filter]
  simp

theorem nonzeroFilter_ne_nil_iff {l : List ℝ} :
    nonzeroFilter l ≠ [] ↔ ∃ x ∈ l, x ≠ 0 := by
  rw [Ne, List.eq_nil_iff_forall_not_mem]
  push_neg
  simp [mem_nonzeroFilter]

/-- Spec wording for the merger: the arithmetic mean of the contributing
means that are not 0. -/
noncomputable def specCombinedMean (means : List ℝ) : ℝ :=
  arithmeticMean (means.filter (fun m => decide (m ≠ 0)))

/-- Spec wording for the merger: sqrt of (sum of squares of the
contributing non-zero stddevs divided by their count) when at least one
positive stddev exists, else 0. -/
noncomputable def specCombinedStddev (stddevs : List ℝ) : ℝ :=
  let nz := stddevs.filter (fun s => decide (s ≠ 0))
  if ∃ s ∈ stddevs, s > 0 then
    Real.sqrt ((nz.map (fun s => s ^ 2)).sum / nz.length)
  else 0

theorem nonzero_pos_iff (S : List ℝ) :
    (nonzeroFilter S ≠ [] ∧ ∃ s ∈ nonzeroFilter S, s > 0) ↔ ∃ s ∈ S, s > 0 := by
  constructor
  · rintro ⟨-, s, hs, hpos⟩
    exact ⟨s, (mem_nonzeroFilter.mp hs).1, hpos⟩
  · rintro ⟨s, hs, hpos⟩
    have hmem : s ∈ nonzeroFilter S := mem_nonzeroFilter.mpr ⟨hs, ne_of_gt hpos⟩
    exact ⟨List.ne_nil_of_mem hmem, s, hmem, hpos⟩

/-- C2: for every list of contributing summaries with a non-zero mean, the
merger outputs the arithmetic mean of the non-zero means and the
root-mean-square of the non-zero stddevs when a positive stddev exists
(else 0); merging stddevs [2.0, 4.0] yields sqrt 10, and merging
{mean 0.01, stddev 0.001} with {mean 0.03, stddev 0.003} for size "10kB"
yields mean 0.02 and stddev sqrt((0.001² + 0.003²)/2). -/
theorem merge_combines_by_uncertainty_propagation (l : List SizeData)
    (sel : SizeData → MetricStats) (h : ∃ r ∈ l, (sel r).mean ≠ 0) :
    (mergeMetric l sel).mean = specCombinedMean (l.map (fun r => (sel r).mean)) ∧
    (mergeMetric l sel).stddev = specCombinedStddev (l.map (fun r => (sel r).stddev)) ∧
    mergeMetric [⟨⟨1, 2⟩, ⟨1, 2⟩, ⟨1, 2⟩⟩, ⟨⟨3, 4⟩, ⟨3, 4⟩, ⟨3, 4⟩⟩]
        (fun r => r.transfer_time) = ⟨2, Real.sqrt 10⟩ ∧
    merge_protocol_results
        [[("10kB", ⟨⟨0.01, 0.001⟩, ⟨0.01, 0.001⟩, ⟨0.01, 0.001⟩⟩)],
         [("10kB", ⟨⟨0.03, 0.003⟩, ⟨0.03, 0.003⟩, ⟨0.03, 0.003⟩⟩)]] =
      Except.ok
        [("10kB",
          ⟨⟨0.02, Real.sqrt ((0.001 ^ 2 + 0.003 ^ 2) / 2)⟩,
           ⟨0.02, Real.sqrt ((0.001 ^ 2 + 0.003 ^ 2) / 2)⟩,
           ⟨0.02, Real.sqrt ((0.001 ^ 2 + 0.003 ^ 2) / 2)⟩⟩)] := by
  have hne : nonzeroFilter (l.map (fun r => (sel r).mean)) ≠ [] := by
    rw [nonzeroFilter_ne_nil_iff]
    rcases h with ⟨r, hr, hm⟩
    exact ⟨(sel r).mean, List.mem_map_of_mem _ hr, hm⟩
  refine ⟨?_, ?_, ?_, ?_⟩
  · simp only [mergeMetric, if_pos hne]
    rw [specCombinedMean, arithmeticMean, nonzeroFilter_eq_filter]
  · simp only [mergeMetric, if_pos hne, specCombinedStddev]
    by_cases hp : ∃ s ∈ l.map (fun r => (sel r).stddev), s > 0
    · rw [if_pos ((nonzero_pos_iff _).mpr hp), if_pos hp, nonzeroFilter_eq_filter]
    · rw [if_neg (fun hc => hp ((nonzero_pos_iff _).mp hc)), if_neg hp]
  · have h1 : nonzeroFilter [(1 : ℝ), 3] = [1, 3] := by norm_num [nonzeroFilter]
    have h2 : nonzeroFilter [(2 : ℝ), 4] = [2, 4] := by norm_num [nonzeroFilter]
    simp only [mergeMetric, List.map_cons, List.map_nil]
    rw [h1, h2]
    rw [if_pos (by simp : ([(1 : ℝ), 3] : List ℝ) ≠ [])]
    rw [if_pos (⟨by simp, 2, by norm_num⟩ :
          ([(2 : ℝ), 4] : List ℝ) ≠ [] ∧ ∃ s ∈ [(2 : ℝ), 4], s > 0)]
    ext
    · norm_num
    · show Real.sqrt _ = Real.sqrt _
      norm_num
  · have hstep :
        merge_protocol_results
            [[("10kB", ⟨⟨0.01, 0.001⟩, ⟨0.01, 0.001⟩, ⟨0.01, 0.001⟩⟩)],
             [("10kB", ⟨⟨0.03, 0.003⟩, ⟨0.03, 0.003⟩, ⟨0.03, 0.003⟩⟩)]] =
          Except.ok
            [("10kB",
              mergedSizeData
                [⟨⟨0.01, 0.001⟩, ⟨0.01, 0.001⟩, ⟨0.01, 0.001⟩⟩,
                 ⟨⟨0.03, 0.003⟩, ⟨0.03, 0.003⟩, ⟨0.03, 0.003⟩⟩])] := rfl
    rw [hstep]
    have key : ∀ sel' : SizeData → MetricStats,
        List.map (fun r => (sel' r).mean)
            [(⟨⟨0.01, 0.001⟩, ⟨0.01, 0.001⟩, ⟨0.01, 0.001⟩⟩ : SizeData),
             ⟨⟨0.03, 0.003⟩, ⟨0.03, 0.003⟩, ⟨0.03, 0.003⟩⟩] = [0.01, 0.03] →
        List.map (fun r => (sel' r).stddev)
            [(⟨⟨0.01, 0.001⟩, ⟨0.01, 0.001⟩, ⟨0.01, 0.001⟩⟩ : SizeData),
             ⟨⟨0.03, 0.003⟩, ⟨0.03, 0.003⟩, ⟨0.03, 0.003⟩⟩] = [0.001, 0.003] →
        mergeMetric
            [⟨⟨0.01, 0.001⟩, ⟨0.01, 0.001⟩, ⟨0.01, 0.001⟩⟩,
             ⟨⟨0.03, 0.003⟩, ⟨0.03, 0.003⟩, ⟨0.03, 0.003⟩⟩] sel' =
          ⟨0.02, Real.sqrt ((0.001 ^ 2 + 0.003 ^ 2) / 2)⟩ := by
      intro sel' hm hs
      have h1 : nonzeroFilter [(0.01 : ℝ), 0.03] = [0.01, 0.03] := by
        norm_num [nonzeroFilter]
      have h2 : nonzeroFilter [(0.001 : ℝ), 0.003] = [0.001, 0.003] := by
        norm_num [nonzeroFilter]
      simp only [mergeMetric, hm, hs]
      rw [h1, h2]
      rw [if_pos (by simp : ([(0.01 : ℝ), 0.03] : List ℝ) ≠ [])]
      rw [if_pos (⟨by simp, 0.001, by norm_num⟩ :
            ([(0.001 : ℝ), 0.003] : List ℝ) ≠ [] ∧
              ∃ s ∈ [(0.001 : ℝ), 0.003], s > 0)]
      ext
      · norm_num
      · show Real.sqrt _ = Real.sqrt _
        norm_num
    have e1 := key (fun r => r.transfer_time) rfl rfl
    have e2 := key (fun r => r.throughput) rfl rfl
    have e3 := key (fun r => r.overhead_ratio) rfl rfl
    rw [mergedSizeData, e1, e2, e3]

theorem merge_combines_by_uncertainty_propagation_witness :
    (mergeMetric [(⟨⟨1, 2⟩, ⟨1, 2⟩, ⟨1, 2⟩⟩ : SizeData), ⟨⟨3, 4⟩, ⟨3, 4⟩, ⟨3, 4⟩⟩]
        (fun r => r.transfer_time)).mean =
      specCombinedMean
        (List.map (fun r => (r.transfer_time : MetricStats).mean)
          [(⟨⟨1, 2⟩, ⟨1, 2⟩, ⟨1, 2⟩⟩ : SizeData), ⟨⟨3, 4⟩, ⟨3, 4⟩, ⟨3, 4⟩⟩]) :=
  (merge_combines_by_uncertainty_propagation
      [⟨⟨1, 2⟩, ⟨1, 2⟩, ⟨1, 2⟩⟩, ⟨⟨3, 4⟩, ⟨3, 4⟩, ⟨3, 4⟩⟩]
      (fun r => r.transfer_time)
      ⟨⟨⟨1, 2⟩, ⟨1, 2⟩, ⟨1, 2⟩⟩, by simp, by norm_num⟩).1

/-- Well-formedness of a metric summary as the aggregator produces it:
stddev is non-negative, and a zero mean (the "no data" sentinel) comes
with a zero stddev. -/
def WellFormedMetric (m : MetricStats) : Prop :=
  0 ≤ m.stddev ∧ (m.mean = 0 → m.stddev = 0)

/-- Well-formedness of all three metric summaries of a size entry. -/
def WellFormedSizeData (d : SizeData) : Prop :=
  WellFormedMetric d.transfer_time ∧ WellFormedMetric d.throughput ∧
    WellFormedMetric d.overhead_ratio

theorem mergeMetric_singleton (d : SizeData) (sel : SizeData → MetricStats)
    (h : WellFormedMetric (sel d)) : mergeMetric [d] sel = sel d := by
  rcases h with ⟨hnn, hzero⟩
  simp only [mergeMetric, List.map_cons, List.map_nil]
  by_cases hm : (sel d).mean = 0
  · have hs : (sel d).stddev = 0 := hzero hm
    rw [hm, hs]
    rw [show nonzeroFilter [(0 : ℝ)] = [] from by norm_num [nonzeroFilter]]
    rw [if_neg (by simp)]
    ext
    · exact hm.symm
    · exact hs.symm
  · have hmf : nonzeroFilter [(sel d).mean] = [(sel d).mean] := by
      simp [nonzeroFilter, hm]
    rw [hmf, if_pos (by simp : [(sel d).mean] ≠ ([] : List ℝ))]
    by_cases hsz : (sel d).stddev = 0
    · rw [show nonzeroFilter [(sel d).stddev] = [] from by simp [nonzeroFilter, hsz]]
      rw [if_neg (by simp)]
      ext
      · simp
      · exact hsz.symm
    · have hpos : 0 < (sel d).stddev := lt_of_le_of_ne hnn (Ne.symm hsz)
      rw [show nonzeroFilter [(sel d).stddev] = [(sel d).stddev] from by
            simp [nonzeroFilter, hsz]]
      have hc : [(sel d).stddev] ≠ ([] : List ℝ) ∧
          ∃ s ∈ [(sel d).stddev], s > 0 := ⟨by simp, (sel d).stddev, by simp, hpos⟩
      rw [if_pos hc]
      ext
      · simp
      · show Real.sqrt _ = _
        have harg :
            ((List.map (fun s => s ^ 2) [(sel d).stddev]).sum /
              ([(sel d).stddev].length : ℝ)) = (sel d).stddev ^ 2 := by simp
        rw [harg, Real.sqrt_sq hnn]

theorem mergedSizeData_singleton (d : SizeData) (hd : WellFormedSizeData d) :
    mergedSizeData [d] = d := by
  rcases hd with ⟨h1, h2, h3⟩
  simp only [mergedSizeData]
  rw [mergeMetric_singleton d _ h1, mergeMetric_singleton d _ h2,
    mergeMetric_singleton d _ h3]

theorem normalizeBase_of_label (s : String) (hs : s ∈ sizeLabels) :
    normalizeBase s = Except.ok (some s) := by
  have hnu : '_' ∉ s.toList := by
    have hall : ∀ t ∈ sizeLabels, '_' ∉ t.toList := by decide
    exact hall s hs
  have hb : baseOfFileName s = s := by rw [baseOfFileName, if_neg hnu]
  have hc : convertBase (baseOfFileName s) = Except.ok s := by
    rw [hb, convertBase, if_pos hs]
  simp [normalizeBase, hc, hs]

theorem merge_singleton_eq (s : String) (d : SizeData) (hs : s ∈ sizeLabels) :
    merge_protocol_results [[(s, d)]] = Except.ok [(s, mergedSizeData [d])] := by
  have hnb : normalizeBase s = Except.ok (some s) := normalizeBase_of_label s hs
  have hsr : sizeResultsFor [[(s, d)]] s s = [d] := by
    simp [sizeResultsFor, lookupKey]
  simp [merge_protocol_results, dedupKeys, mergeLoop, hnb, hsr, updateKey]

/-- C7: merging an input in which a recognized size label is contributed by
exactly one well-formed summary is the identity on that summary. -/
theorem merge_singleton_identity (s : String) (d : SizeData)
    (hs : s ∈ sizeLabels) (hd : WellFormedSizeData d) :
    merge_protocol_results [[(s, d)]] = Except.ok [(s, d)] := by
  rw [merge_singleton_eq s d hs, mergedSizeData_singleton d hd]

theorem merge_singleton_identity_witness :
    merge_protocol_results [[("10kB", ⟨⟨1, 2⟩, ⟨3, 4⟩, ⟨5, 0⟩⟩)]] =
      Except.ok [("10kB", ⟨⟨1, 2⟩, ⟨3, 4⟩, ⟨5, 0⟩⟩)] :=
  merge_singleton_identity "10kB" ⟨⟨1, 2⟩, ⟨3, 4⟩, ⟨5, 0⟩⟩ (by decide)
    (by norm_num [WellFormedSizeData, WellFormedMetric])

/-- C3 (code evaluation): a recognized raw byte count key is normalized to
its canonical label ("1048576" becomes "1MB"), but an unrecognized key
such as "999999" raises KeyError in the conversion-dict lookup instead of
being silently skipped, so merge_protocol_results aborts with that key. -/
theorem merge_unrecognized_key_raises :
    merge_protocol_results [[("999999", ⟨⟨1, 1⟩, ⟨1, 1⟩, ⟨1, 1⟩⟩)]] =
      Except.error "999999" ∧
    merge_protocol_results [[("1048576", ⟨⟨1, 1⟩, ⟨1, 1⟩, ⟨1, 1⟩⟩)]] =
      Except.ok [("1MB", ⟨⟨1, 1⟩, ⟨1, 1⟩, ⟨1, 1⟩⟩)] := by
  constructor
  · rfl
  · have hd : WellFormedSizeData ⟨⟨1, 1⟩, ⟨1, 1⟩, ⟨1, 1⟩⟩ := by
      norm_num [WellFormedSizeData, WellFormedMetric]
    have hstep :
        merge_protocol_results [[("1048576", ⟨⟨1, 1⟩, ⟨1, 1⟩, ⟨1, 1⟩⟩)]] =
          Except.ok [("1MB", mergedSizeData [⟨⟨1, 1⟩, ⟨1, 1⟩, ⟨1, 1⟩⟩])] := rfl
    rw [hstep, mergedSizeData_singleton _ hd]

/-- C4 (counterexample): invoked on an empty sample sequence the aggregator
does not fail: calculate_statistics returns the zero-sentinel summary and
process_experiment_results returns None. -/
theorem empty_input_no_failure_concrete :
    calculate_statistics ([] : List ℝ) = ⟨0, 0⟩ ∧
    process_experiment_results [] "files_10kB" = none := ⟨rfl, rfl⟩

/-- C4 (amended): on an empty sample sequence (n = 0) the aggregator does
not raise any error: calculate_statistics returns the sentinel
{mean 0, stddev 0} and process_experiment_results returns None rather
than a summary. -/
theorem empty_input_returns_sentinel :
    calculate_statistics ([] : List ℝ) = ⟨0, 0⟩ ∧
    ∀ name : String, process_experiment_results [] name = none :=
  ⟨rfl, fun _ => rfl⟩

theorem empty_input_returns_sentinel_witness :
    process_experiment_results [] "results_A" = none :=
  empty_input_returns_sentinel.2 "results_A"

/-- The `size_order` sort key of create_excel; unknown labels get 99. -/
def sizeKey (s : String) : ℕ :=
  if s = "10kB" then 0
  else if s = "100kB" then 1
  else if s = "1MB" then 2
  else if s = "10MB" then 3
  else 99

/-- Stable insertion modelling Python's stable `sorted` by sizeKey. -/
def insertBySizeKey (x : String) : List String → List String
  | [] => [x]
  | y :: ys =>
    if sizeKey y ≤ sizeKey x then y :: insertBySizeKey x ys else x :: y :: ys

def sortBySizeKey (l : List String) : List String :=
  l.foldl (fun acc x => insertBySizeKey x acc) []

/-- The row index of create_excel: all file sizes of all protocols,
deduplicated and sorted in the canonical 10kB, 100kB, 1MB, 10MB order. -/
def file_sizes_of (protocol_data : List (String × FileResult)) : List String :=
  sortBySizeKey (dedupKeys (protocol_data.flatMap (fun e => e.2.map Prod.fst)))

/-- The two cells one protocol contributes to one row of a metric sheet in
create_excel: the metric's mean and stddev when the protocol has the size,
the blank pair (None, None) otherwise. -/
def cellsFor (d : FileResult) (s : String) (sel : SizeData → MetricStats) :
    List (Option ℝ) :=
  match lookupKey d s with
  | some sd => [some (sel sd).mean, some (sel sd).stddev]
  | none => [none, none]

/-- One row of a metric sheet: two cells per protocol, in protocol order. -/
def metricRow (protocol_data : List (String × FileResult)) (s : String)
    (sel : SizeData → MetricStats) : List (Option ℝ) :=
  protocol_data.flatMap (fun e => cellsFor e.2 s sel)

/-- One metric sheet: a row per file size. -/
def sheetTable (protocol_data : List (String × FileResult))
    (sel : SizeData → MetricStats) : List (String × List (Option ℝ)) :=
  (file_sizes_of protocol_data).map (fun s => (s, metricRow protocol_data s sel))

/-- The column_tuples loop of create_excel: the pair (protocol, "Mean"),
(protocol, "Std Dev") for each protocol, in protocol order. -/
def columnTuples (protocol_data : List (String × FileResult)) :
    List (String × String) :=
  protocol_data.flatMap (fun e => [(e.1, "Mean"), (e.1, "Std Dev")])

/-- pd.MultiIndex.from_tuples as called by create_excel: on the empty tuple
list it raises TypeError ("Cannot infer number of levels from empty
list"), modelled as `Except.error`; otherwise it builds the column index
from the tuples. -/
def multiIndexFromTuples (tuples : List (String × String)) :
    Except String (List (String × String)) :=
  match tuples with
  | [] => Except.error "TypeError"
  | _ :: _ => Except.ok tuples

/-- create_excel from src/analyze.py, modelled as the cell contents of the
workbook it writes: the three metric sheets, each a table of rows indexed
by file size with two cells (mean, stddev) per protocol. Building the
column index raises TypeError when there are no column tuples, i.e.
exactly when the protocol mapping is empty, before anything is written.
Cell styling, number formats and column widths are presentation only and
are not modelled. -/
def create_excel (protocol_data : List (String × FileResult)) :
    Except String (List (String × List (String × List (Option ℝ)))) :=
  match multiIndexFromTuples (columnTuples protocol_data) with
  | Except.error e => Except.error e
  | Except.ok _ =>
    Except.ok
      [("Transfer Time (s)", sheetTable protocol_data (fun d => d.transfer_time)),
       ("Throughput (bps)", sheetTable protocol_data (fun d => d.throughput)),
       ("Overhead Ratio", sheetTable protocol_data (fun d => d.overhead_ratio))]

/-- C5 (counterexample): on the empty protocol mapping create_excel does
not produce a workbook, empty or otherwise: with no protocols the column
tuple list is empty and building the column index raises TypeError, a
fatal error, before any sheet is written — there is no non-fatal
empty-workbook path. -/
theorem create_excel_empty_raises :
    create_excel [] = Except.error "TypeError" := rfl

/-- C5 (amended): given an empty protocol-to-data mapping the report
builder raises a fatal TypeError while building the empty column index
and produces no workbook at all (nothing is logged for this case); for
every non-empty mapping the column index is built and the three metric
sheets are produced. -/
theorem create_excel_empty_fatal :
    create_excel [] = Except.error "TypeError" ∧
    ∀ (p : String) (d : FileResult) (rest : List (String × FileResult)),
      ∃ sheets, create_excel ((p, d) :: rest) = Except.ok sheets := by
  refine ⟨rfl, ?_⟩
  intro p d rest
  exact ⟨_, rfl⟩

theorem create_excel_empty_fatal_witness :
    ∃ sheets, create_excel [("HTTP/1.1", [])] = Except.ok sheets :=
  create_excel_empty_fatal.2 "HTTP/1.1" [] []

/-- C6 (counterexample): a size entry whose metric had no non-zero means is
merged to the {mean 0, stddev 0} marker and then rendered as numeric 0
cells, not blank ones: here transfer_time is the all-zero metric and its
row cells are (0, 0), while a blank cell would be None. -/
theorem zero_mean_cell_not_blank :
    merge_protocol_results [[("10kB", ⟨⟨0, 0⟩, ⟨5, 1⟩, ⟨2, 1⟩⟩)]] =
      Except.ok [("10kB", ⟨⟨0, 0⟩, ⟨5, 1⟩, ⟨2, 1⟩⟩)] ∧
    create_excel [("HTTP/1.1", [("10kB", ⟨⟨0, 0⟩, ⟨5, 1⟩, ⟨2, 1⟩⟩)])] =
      Except.ok
        [("Transfer Time (s)", [("10kB", [some 0, some 0])]),
         ("Throughput (bps)", [("10kB", [some 5, some 1])]),
         ("Overhead Ratio", [("10kB", [some 2, some 1])])] ∧
    ([some (0 : ℝ), some 0] ≠ [none, none]) := by
  refine ⟨?_, rfl, by simp⟩
  have hd : WellFormedSizeData ⟨⟨0, 0⟩, ⟨5, 1⟩, ⟨2, 1⟩⟩ := by
    norm_num [WellFormedSizeData, WellFormedMetric]
  have hstep :
      merge_protocol_results [[("10kB", ⟨⟨0, 0⟩, ⟨5, 1⟩, ⟨2, 1⟩⟩)]] =
        Except.ok [("10kB", mergedSizeData [⟨⟨0, 0⟩, ⟨5, 1⟩, ⟨2, 1⟩⟩])] :=
    merge_singleton_eq "10kB" _ (by decide)
  rw [hstep, mergedSizeData_singleton _ hd]

/-- C6 (amended): a metric cell of a size present in the merged data but
with no non-zero contributing means carries the {mean 0, stddev 0} absence
marker, and create_excel renders it as the numeric cells (0, 0), not as
blanks; no error is raised. -/
theorem absent_metric_marker_rendered_as_zero :
    (∀ (l : List SizeData) (sel : SizeData → MetricStats),
      (∀ r ∈ l, (sel r).mean = 0) → mergeMetric l sel = ⟨0, 0⟩) ∧
    (∀ (d : FileResult) (s : String) (sel : SizeData → MetricStats)
      (sd : SizeData), lookupKey d s = some sd → sel sd = ⟨0, 0⟩ →
      cellsFor d s sel = [some 0, some 0]) := by
  constructor
  · intro l sel hall
    have hnil : nonzeroFilter (l.map (fun r => (sel r).mean)) = [] := by
      by_contra hne
      rcases nonzeroFilter_ne_nil_iff.mp hne with ⟨x, hx, hxz⟩
      rcases List.mem_map.mp hx with ⟨r, hr, rfl⟩
      exact hxz (hall r hr)
    simp only [mergeMetric, hnil]
    rw [if_neg (by simp)]
  · intro d s sel sd hlook hzero
    simp only [cellsFor, hlook, hzero]

theorem absent_metric_marker_rendered_as_zero_witness :
    mergeMetric [(⟨⟨0, 3⟩, ⟨5, 1⟩, ⟨2, 1⟩⟩ : SizeData)]
      (fun d => d.transfer_time) = ⟨0, 0⟩ :=
  absent_metric_marker_rendered_as_zero.1 [⟨⟨0, 3⟩, ⟨5, 1⟩, ⟨2, 1⟩⟩]
    (fun d => d.transfer_time) (by norm_num)

/-- C8: when a protocol's merged data has no entry for a file size, the
rendered row for that size carries the blank pair (None, None) in that
protocol's two columns, leaving every other protocol's cells unchanged. -/
theorem missing_size_renders_blank (pre post : List (String × FileResult))
    (p : String) (d : FileResult) (s : String) (sel : SizeData → MetricStats)
    (h : lookupKey d s = none) :
    metricRow (pre ++ (p, d) :: post) s sel =
      metricRow pre s sel ++ [none, none] ++ metricRow post s sel := by
  simp [metricRow, cellsFor, h]

theorem missing_size_renders_blank_witness :
    metricRow
        [("HTTP/1.1", [("10kB", ⟨⟨1, 1⟩, ⟨1, 1⟩, ⟨1, 1⟩⟩),
                       ("100kB", ⟨⟨2, 1⟩, ⟨2, 1⟩, ⟨2, 1⟩⟩)]),
         ("BitTorrent", [("10kB", ⟨⟨9, 1⟩, ⟨9, 1⟩, ⟨9, 1⟩⟩)])] "100kB"
        (fun d => d.transfer_time) =
      metricRow [("HTTP/1.1", [("10kB", ⟨⟨1, 1⟩, ⟨1, 1⟩, ⟨1, 1⟩⟩),
                               ("100kB", ⟨⟨2, 1⟩, ⟨2, 1⟩, ⟨2, 1⟩⟩)])] "100kB"
          (fun d => d.transfer_time) ++ [none, none] ++
        metricRow [] "100kB" (fun d => d.transfer_time) :=
  missing_size_renders_blank
    [("HTTP/1.1", [("10kB", ⟨⟨1, 1⟩, ⟨1, 1⟩, ⟨1, 1⟩⟩),
                   ("100kB", ⟨⟨2, 1⟩, ⟨2, 1⟩, ⟨2, 1⟩⟩)])]
    [] "BitTorrent" [("10kB", ⟨⟨9, 1⟩, ⟨9, 1⟩, ⟨9, 1⟩⟩)] "100kB"
    (fun d => d.transfer_time) rfl

/-- The per-size record shape read from the input JSON `files` mapping;
a `none` field is a key the record lacks, whose access raises KeyError
inside the try-block of parse_results. -/
structure RawFileData where
  transfer_time : Option MetricStats
  throughput_bps : Option MetricStats
  overhead_ratio : Option MetricStats

/-- A successfully json.load-ed result document. -/
structure RawFile where
  protocol : Option String
  file_prefix : Option String
  files : List (String × RawFileData)

/-- The dict-building loop of parse_results; `Except.error` models the
KeyError raised by a record missing one of the three metric fields. -/
def extractFiles : List (String × RawFileData) → Except String FileResult
  | [] => Except.ok []
  | (k, fd) :: rest =>
    match fd.transfer_time, fd.throughput_bps, fd.overhead_ratio with
    | some t, some tp, some ov =>
      (extractFiles rest).map (fun r => (k, ⟨t, tp, ov⟩) :: r)
    | _, _, _ => Except.error "KeyError"

/-- parse_results from src/analyze.py. The input is the outcome of opening
and json.load-ing the path (an `Except.error` is an unreadable or
malformed file); any exception inside the try-block is caught and yields
`({}, "Unknown", "Unknown")`, which the function also returns, printing
the error, for a read failure. -/
def parse_results (input : Except String RawFile) :
    FileResult × String × String :=
  match input with
  | Except.error _ => ([], "Unknown", "Unknown")
  | Except.ok data =>
    match extractFiles data.files with
    | Except.ok results =>
      (results, data.protocol.getD "Unknown",
        (RawFile.file_prefix data).getD "Unknown")
    | Except.error _ => ([], "Unknown", "Unknown")

/-- Python dict update `protocol_files[protocol].append(file_data)` with
creation of a missing key: append to an existing protocol's list, else add
the protocol at the end. -/
def updateGroup : List (String × List FileResult) → String → FileResult →
    List (String × List FileResult)
  | [], p, fd => [(p, [fd])]
  | e :: rest, p, fd =>
    if e.1 = p then (e.1, e.2 ++ [fd]) :: rest else e :: updateGroup rest p fd

/-- The grouping loop of main in src/analyze.py over the parse outcomes of
the discovered result files, in discovery order. -/
def groupFilesAux : List (Except String RawFile) →
    List (String × List FileResult) → List (String × List FileResult)
  | [], acc => acc
  | input :: rest, acc =>
    groupFilesAux rest
      (updateGroup acc (parse_results input).2.1 (parse_results input).1)

def groupFiles (inputs : List (Except String RawFile)) :
    List (String × List FileResult) :=
  groupFilesAux inputs []

/-- Reading one protocol's collected contribution list back from the
grouping dict (`protocol_files[protocol]`, empty when absent). -/
def groupLookup (groups : List (String × List FileResult)) (p : String) :
    List FileResult :=
  ((groups.find? (fun e => e.1 == p)).map Prod.snd).getD []

/-- The contributions one protocol receives, in input order: the view of
the grouping loop proved equivalent to it below. -/
def contributionsFor (inputs : List (Except String RawFile)) (p : String) :
    List FileResult :=
  (inputs.map parse_results).filterMap
    (fun t => if t.2.1 = p then some t.1 else none)

theorem groupLookup_nil (p : String) : groupLookup [] p = [] := rfl

theorem groupLookup_updateGroup (acc : List (String × List FileResult))
    (q p : String) (fd : FileResult) :
    groupLookup (updateGroup acc q fd) p =
      if q = p then groupLookup acc p ++ [fd] else groupLookup acc p := by
  induction acc with
  | nil =>
    by_cases h : q = p
    · subst h
      simp [updateGroup, groupLookup]
    · simp [updateGroup, groupLookup, h]
  | cons e rest ih =>
    by_cases he : e.1 = q
    · simp only [updateGroup, if_pos he]
      by_cases hep : e.1 = p
      · have hqp : q = p := he.symm.trans hep
        rw [if_pos hqp]
        simp [groupLookup, hep]
      · have hqp : q ≠ p := fun hh => hep (he.trans hh)
        rw [if_neg hqp]
        simp [groupLookup, hep]
    · simp only [updateGroup, if_neg he]
      by_cases hep : e.1 = p
      · have hqp : q ≠ p := fun hh => he (hep.trans hh.symm)
        rw [if_neg hqp]
        simp [groupLookup, hep]
      · have hskip : ∀ l, groupLookup (e :: l) p = groupLookup l p := by
          intro l
          simp [groupLookup, hep]
        simp only [hskip, ih]

theorem groupFilesAux_lookup (inputs : List (Except String RawFile)) :
    ∀ (acc : List (String × List FileResult)) (p : String),
      groupLookup (groupFilesAux inputs acc) p =
        groupLookup acc p ++ contributionsFor inputs p := by
  induction inputs with
  | nil =>
    intro acc p
    simp [groupFilesAux, contributionsFor]
  | cons input rest ih =>
    intro acc p
    simp only [groupFilesAux]
    rw [ih, groupLookup_updateGroup]
    by_cases h : (parse_results input).2.1 = p
    · rw [if_pos h]
      simp [contributionsFor, h]
    · rw [if_neg h]
      simp [contributionsFor, h]

theorem sizeResultsFor_append_empty (rs : List FileResult) (n b : String) :
    sizeResultsFor (rs ++ [[]]) n b = sizeResultsFor rs n b := by
  simp [sizeResultsFor, lookupKey, findContaining]

theorem mergeLoop_append_empty (rs : List FileResult) :
    ∀ (keys : List String) (acc : FileResult),
      mergeLoop (rs ++ [[]]) keys acc = mergeLoop rs keys acc := by
  intro keys
  induction keys with
  | nil =>
    intro acc
    rfl
  | cons k rest ih =>
    intro acc
    simp only [mergeLoop, sizeResultsFor_append_empty]
    cases hnb : normalizeBase k with
    | error e => rfl
    | ok ob =>
      cases ob with
      | none =>
        dsimp only
        exact ih acc
      | some base =>
        dsimp only
        cases hsr : sizeResultsFor rs k base with
        | nil =>
          dsimp only
          exact ih acc
        | cons v vs =>
          dsimp only
          exact ih _

theorem merge_append_empty (rs : List FileResult) :
    merge_protocol_results (rs ++ [[]]) = merge_protocol_results rs := by
  cases rs with
  | nil => rfl
  | cons r rest =>
    simp only [merge_protocol_results]
    rw [mergeLoop_append_empty]
    have hk : ((r :: rest) ++ ([[]] : List FileResult)).flatMap
          (fun t => t.map Prod.fst) =
        (r :: rest).flatMap (fun t => t.map Prod.fst) := by simp
    rw [hk]
    rfl

/-- C9: a malformed or unreadable input file is skipped and never aborts
the run: parse_results turns a read failure into the empty contribution
under protocol "Unknown"; the grouping of every other protocol's files is
unchanged by the malformed file while "Unknown" just gains the empty
contribution; and an empty contribution never changes a protocol's merged
output. -/
theorem malformed_file_skipped (e : String)
    (pre post : List (Except String RawFile)) (p : String)
    (rs : List FileResult) :
    parse_results (Except.error e) = ([], "Unknown", "Unknown") ∧
    (p ≠ "Unknown" →
      groupLookup (groupFiles (pre ++ Except.error e :: post)) p =
        groupLookup (groupFiles (pre ++ post)) p) ∧
    groupLookup (groupFiles (pre ++ Except.error e :: post)) "Unknown" =
      groupLookup (groupFiles pre) "Unknown" ++
        [] :: groupLookup (groupFiles post) "Unknown" ∧
    merge_protocol_results (rs ++ [[]]) = merge_protocol_results rs := by
  refine ⟨rfl, ?_, ?_, merge_append_empty rs⟩
  · intro hp
    simp only [groupFiles]
    rw [groupFilesAux_lookup, groupFilesAux_lookup]
    have hne : ¬(("Unknown" : String) = p) := fun hh => hp hh.symm
    simp [contributionsFor, parse_results, hne]
  · simp only [groupFiles]
    rw [groupFilesAux_lookup, groupFilesAux_lookup, groupFilesAux_lookup]
    simp [contributionsFor, parse_results, groupLookup_nil]

theorem malformed_file_skipped_witness :
    groupLookup (groupFiles [Except.error "io-error"]) "HTTP/1.1" =
      groupLookup (groupFiles []) "HTTP/1.1" :=
  (malformed_file_skipped "io-error" [] [] "HTTP/1.1" []).2.1 (by decide)
